import Mathlib

/-!
Verification of the reconciliation/merge engine of the teevee series tracker.

The definitions below are a shallow embedding of `src/app/services.py` and
`src/app/bulk_ingest.py`.  Python strings are modelled as `String`, optional
values as `Option`, floats (only compared and copied, never computed with)
as `Rat`, and the SQLAlchemy-backed store as a `List` of records in insertion
order, where a SELECT ... LIMIT 1 is `List.find?` (read-your-writes: adds are
appended and visible to later lookups in the same pass) and an ORM field
mutation is an in-place replacement of the first matching element.
-/

/-- Model of Python's `str.strip()` on the character list of a string:
drop whitespace from the front, then from the back. -/
def stripChars (l : List Char) : List Char :=
  (((l.dropWhile Char.isWhitespace).reverse).dropWhile Char.isWhitespace).reverse

/-- Model of Python's `str.strip()`. -/
def pstrip (s : String) : String :=
  ⟨stripChars s.data⟩

/-- Embedding of `services.is_valid_text` (`src/app/services.py` lines 10-18),
with the default `min_length = 2` inlined.  `if not value` is falsy exactly on
`None` and the empty string; `char.isalnum()` is modelled by
`Char.isAlphanum`. -/
def is_valid_text (value : Option String) : Bool :=
  match value with
  | none => false
  | some v =>
    if v = "" then false
    else
      let cleaned := pstrip v
      if cleaned.length < 2 then false
      else if !(cleaned.data.any Char.isAlphanum) then false
      else true

/-- Embedding of `services.better_text` (`src/app/services.py` lines 21-28).
When the candidate is valid it is necessarily `some`, so `candidate.strip()`
is `candidate.map pstrip` and the trimmed-length comparison reads the values
through `Option.getD`. -/
def better_text (current candidate : Option String) : Option String :=
  if !is_valid_text candidate then current
  else if !is_valid_text current then candidate.map pstrip
  else if (pstrip (candidate.getD "")).length > (pstrip (current.getD "")).length then
    candidate.map pstrip
  else current

/-- Modelled from the spec: the quality rule exactly as claim C1 words it.
An invalid candidate is always rejected and current is returned; if current is
invalid or absent and the candidate is valid, the trimmed candidate is
returned; if both are valid the one with strictly longer trimmed length is
returned (the candidate trimmed when it wins); on a tie current is kept. -/
def better_text_spec (current candidate : Option String) : Option String :=
  match candidate, current with
  | none, _ => current
  | some c, none =>
      if is_valid_text (some c) then some (pstrip c) else current
  | some c, some cur =>
      if !is_valid_text (some c) then current
      else if !is_valid_text (some cur) then some (pstrip c)
      else if (pstrip cur).length < (pstrip c).length then some (pstrip c)
      else current

/-- Python truthiness of an optional integer: `None` and `0` are falsy. -/
def truthyInt : Option Int → Bool
  | none => false
  | some n => decide (n ≠ 0)

/-- Python truthiness of an optional string: `None` and `""` are falsy. -/
def truthyStr : Option String → Bool
  | none => false
  | some s => decide (s ≠ "")

/-- The comparison `item.rating > existing.rating`; in the source it is only
evaluated when both sides are non-`None` (short-circuit), so the other cases
are irrelevant and mapped to `false`. -/
def ratingGt : Option Rat → Option Rat → Bool
  | some a, some b => decide (b < a)
  | _, _ => false

/-- Embedding of the scraper dataclass `CatalogItem`
(`src/app/scraper.py` lines 24-34).  `source_url` is optional because the
OMDb adapter passes `None` for it. -/
structure CatalogItem where
  title : String
  media_type : String
  year : Option Int
  source : String
  source_url : Option String
  external_id : Option String
  description : Option String
  release_date : Option String
  rating : Option Rat
deriving DecidableEq

/-- The persisted `CatalogTitle` row with the columns the merge engine reads
and writes (`src/app/models.py` plus the `description`, `release_date` and
`rating` columns that `services.py` and `schemas.py` use). -/
structure CatalogTitle where
  title : String
  media_type : String
  year : Option Int
  source : String
  source_url : Option String
  external_id : Option String
  description : Option String
  release_date : Option String
  rating : Option Rat
deriving DecidableEq

/-- Embedding of the scraper dataclass `EpisodeItem`
(`src/app/scraper.py` lines 37-45); `source_url` is a plain string there. -/
structure EpisodeItem where
  title : String
  season_number : Option Int
  episode_number : Option Int
  air_date : Option String
  description : Option String
  source : String
  source_url : String
deriving DecidableEq

/-- The persisted `Episode` row as constructed and merged by
`services.upsert_episode_items` and `bulk_ingest.upsert_imdb_episodes`
(the model class itself is referenced but not present under `src/`; the
fields are those the merge code reads and writes, per spec section 3). -/
structure Episode where
  catalog_id : Int
  title : String
  season_number : Option Int
  episode_number : Option Int
  air_date : Option String
  description : Option String
  source : String
  source_url : Option String
deriving DecidableEq

/-- The state threaded through one merge pass: the store contents plus the
`created` / `updated` tallies. -/
structure MergeState (α : Type) where
  store : List α
  created : Nat
  updated : Nat
deriving DecidableEq

/-- Replace the first element satisfying `q` by its image under `f`
(the model of mutating the row found by SELECT ... LIMIT 1). -/
def updateFirstWith (q : α → Bool) (f : α → α) : List α → List α
  | [] => []
  | x :: xs => if q x then f x :: xs else x :: updateFirstWith q f xs

/-- The WHERE clause of the title lookup in `upsert_catalog_items`
(`src/app/services.py` lines 37-49): exact match on title, source and
media_type. -/
def catalogMatches (item : CatalogItem) (r : CatalogTitle) : Bool :=
  decide (r.title = item.title ∧ r.source = item.source ∧ r.media_type = item.media_type)

/-- Embedding of the field-merge block of `upsert_catalog_items`
(`src/app/services.py` lines 50-73), returning the merged row and the
`changed` flag.  The source performs the six guarded writes sequentially on
the ORM object; every guard reads only fields no earlier write in the same
iteration touches, so they are rendered as one simultaneous record update. -/
def mergeCatalog (existing : CatalogTitle) (item : CatalogItem) : CatalogTitle × Bool :=
  let upd_year := truthyInt item.year && !truthyInt existing.year
  let upd_url := truthyStr item.source_url && !truthyStr existing.source_url
  let upd_ext := truthyStr item.external_id && !truthyStr existing.external_id
  let new_description := better_text existing.description item.description
  let upd_desc := decide (new_description ≠ existing.description)
  let new_release_date := better_text existing.release_date item.release_date
  let upd_rel := decide (new_release_date ≠ existing.release_date)
  let upd_rat := item.rating.isSome && (existing.rating.isNone || ratingGt item.rating existing.rating)
  ({ existing with
      year := if upd_year then item.year else existing.year
      source_url := if upd_url then item.source_url else existing.source_url
      external_id := if upd_ext then item.external_id else existing.external_id
      description := if upd_desc then new_description else existing.description
      release_date := if upd_rel then new_release_date else existing.release_date
      rating := if upd_rat then item.rating else existing.rating },
   upd_year || upd_url || upd_ext || upd_desc || upd_rel || upd_rat)

/-- The row built by `session.add(CatalogTitle(...))` on the no-match path
(`src/app/services.py` lines 75-88). -/
def newCatalogTitle (item : CatalogItem) : CatalogTitle :=
  { title := pstrip item.title
    media_type := item.media_type
    year := item.year
    source := item.source
    source_url := item.source_url
    external_id := item.external_id
    description := if is_valid_text item.description then item.description.map pstrip else none
    release_date := if is_valid_text item.release_date then item.release_date.map pstrip else none
    rating := item.rating }

/-- One iteration of the loop in `upsert_catalog_items`
(`src/app/services.py` lines 34-88). -/
def upsertCatalogStep (st : MergeState CatalogTitle) (item : CatalogItem) : MergeState CatalogTitle :=
  if !is_valid_text (some item.title) then st
  else
    match st.store.find? (catalogMatches item) with
    | some existing =>
        { st with
            store := updateFirstWith (catalogMatches item) (fun e => (mergeCatalog e item).1) st.store
            updated := if (mergeCatalog existing item).2 then st.updated + 1 else st.updated }
    | none =>
        { st with
            store := st.store ++ [newCatalogTitle item]
            created := st.created + 1 }

/-- Embedding of `services.upsert_catalog_items`
(`src/app/services.py` lines 31-90). -/
def upsert_catalog_items (store : List CatalogTitle) (items : List CatalogItem) : MergeState CatalogTitle :=
  items.foldl upsertCatalogStep { store := store, created := 0, updated := 0 }

/-- The two-tier WHERE clause of the episode lookup in `upsert_episode_items`
(`src/app/services.py` lines 101-127): by (catalog_id, season, episode) when
the item carries both numbers, otherwise by (catalog_id, title). -/
def episodeMatches (catalog_id : Int) (item : EpisodeItem) (e : Episode) : Bool :=
  if item.season_number.isSome && item.episode_number.isSome then
    decide (e.catalog_id = catalog_id ∧ e.season_number = item.season_number ∧
            e.episode_number = item.episode_number)
  else
    decide (e.catalog_id = catalog_id ∧ e.title = item.title)

/-- Embedding of the field-merge block of `upsert_episode_items`
(`src/app/services.py` lines 128-146).  As for `mergeCatalog`, the
sequential guarded writes touch pairwise distinct fields and are rendered as
one simultaneous update.  `better_text` applied to the (always `some`) titles
never returns `none`, so the title write is read through `Option.getD`. -/
def mergeEpisode (existing : Episode) (item : EpisodeItem) : Episode × Bool :=
  let new_title := better_text (some existing.title) (some item.title)
  let upd_title := decide (new_title ≠ some existing.title)
  let new_air_date := better_text existing.air_date item.air_date
  let upd_air := decide (new_air_date ≠ existing.air_date)
  let new_description := better_text existing.description item.description
  let upd_desc := decide (new_description ≠ existing.description)
  let upd_url := decide (item.source_url ≠ "") && !truthyStr existing.source_url
  ({ existing with
      title := if upd_title then new_title.getD existing.title else existing.title
      air_date := if upd_air then new_air_date else existing.air_date
      description := if upd_desc then new_description else existing.description
      source_url := if upd_url then some item.source_url else existing.source_url },
   upd_title || upd_air || upd_desc || upd_url)

/-- The row built by `session.add(Episode(...))` on the no-match path
(`src/app/services.py` lines 148-159). -/
def newEpisode (catalog_id : Int) (item : EpisodeItem) : Episode :=
  { catalog_id := catalog_id
    title := pstrip item.title
    season_number := item.season_number
    episode_number := item.episode_number
    air_date := if is_valid_text item.air_date then item.air_date.map pstrip else none
    description := if is_valid_text item.description then item.description.map pstrip else none
    source := item.source
    source_url := some item.source_url }

/-- One iteration of the loop in `upsert_episode_items`
(`src/app/services.py` lines 98-160). -/
def upsertEpisodeStep (catalog_id : Int) (st : MergeState Episode) (item : EpisodeItem) : MergeState Episode :=
  if !is_valid_text (some item.title) then st
  else
    match st.store.find? (episodeMatches catalog_id item) with
    | some existing =>
        { st with
            store := updateFirstWith (episodeMatches catalog_id item)
              (fun e => (mergeEpisode e item).1) st.store
            updated := if (mergeEpisode existing item).2 then st.updated + 1 else st.updated }
    | none =>
        { st with
            store := st.store ++ [newEpisode catalog_id item]
            created := st.created + 1 }

/-- Embedding of `services.upsert_episode_items`
(`src/app/services.py` lines 93-162). -/
def upsert_episode_items (store : List Episode) (catalog_id : Int) (items : List EpisodeItem) : MergeState Episode :=
  items.foldl (upsertEpisodeStep catalog_id) { store := store, created := 0, updated := 0 }

/-- Embedding of the bulk-ingest dataclass `TitleRecord`
(`src/app/bulk_ingest.py` lines 18-25). -/
structure TitleRecord where
  tconst : String
  title_type : String
  primary_title : String
  start_year : Option Int
  end_year : Option Int
deriving DecidableEq

/-- Embedding of the bulk-ingest dataclass `EpisodeRecord`
(`src/app/bulk_ingest.py` lines 33-38). -/
structure EpisodeRecord where
  tconst : String
  parent_tconst : String
  season_number : Option Int
  episode_number : Option Int
deriving DecidableEq

/-- Embedding of the bulk-ingest dataclass `EpisodeTitleRecord`
(`src/app/bulk_ingest.py` lines 41-45). -/
structure EpisodeTitleRecord where
  tconst : String
  title : String
  start_year : Option Int
deriving DecidableEq

/-- Embedding of `bulk_ingest.imdb_title_type_to_media`
(`src/app/bulk_ingest.py` lines 133-134). -/
def imdb_title_type_to_media (title_type : String) : String :=
  if title_type = "tvSeries" ∨ title_type = "tvMiniSeries" then "series" else "movie"

/-- The WHERE clause of the title lookup in `upsert_imdb_titles`
(`src/app/bulk_ingest.py` lines 145-156): match on external_id and
source = imdb. -/
def imdbTitleMatches (tconst : String) (r : CatalogTitle) : Bool :=
  decide (r.external_id = some tconst ∧ r.source = "imdb")

/-- The field-merge block of `upsert_imdb_titles`
(`src/app/bulk_ingest.py` lines 158-167): fill year when falsy, fill rating
only when the stored rating is `None`. -/
def mergeImdbTitle (existing : CatalogTitle) (record : TitleRecord) (rating : Option Rat) :
    CatalogTitle × Bool :=
  let upd_year := truthyInt record.start_year && !truthyInt existing.year
  let upd_rat := rating.isSome && existing.rating.isNone
  ({ existing with
      year := if upd_year then record.start_year else existing.year
      rating := if upd_rat then rating else existing.rating },
   upd_year || upd_rat)

/-- The row built on the no-match path of `upsert_imdb_titles`
(`src/app/bulk_ingest.py` lines 169-180); `description` and `release_date`
are not passed and default to `None`. -/
def newImdbTitle (record : TitleRecord) (rating : Option Rat) : CatalogTitle :=
  { title := record.primary_title
    media_type := imdb_title_type_to_media record.title_type
    year := record.start_year
    source := "imdb"
    source_url := some ("https://www.imdb.com/title/" ++ record.tconst ++ "/")
    external_id := some record.tconst
    description := none
    release_date := none
    rating := rating }

/-- One iteration of the loop in `upsert_imdb_titles`
(`src/app/bulk_ingest.py` lines 142-181); `rating_map.get` is modelled as a
function into `Option Rat`. -/
def upsertImdbTitleStep (rating_map : String → Option Rat) (st : MergeState CatalogTitle)
    (record : TitleRecord) : MergeState CatalogTitle :=
  if record.tconst = "" ∨ record.primary_title = "" then st
  else
    let rating := rating_map record.tconst
    match st.store.find? (imdbTitleMatches record.tconst) with
    | some existing =>
        { st with
            store := updateFirstWith (imdbTitleMatches record.tconst)
              (fun e => (mergeImdbTitle e record rating).1) st.store
            updated := if (mergeImdbTitle existing record rating).2 then st.updated + 1 else st.updated }
    | none =>
        { st with
            store := st.store ++ [newImdbTitle record rating]
            created := st.created + 1 }

/-- Embedding of `bulk_ingest.upsert_imdb_titles`
(`src/app/bulk_ingest.py` lines 137-182). -/
def upsert_imdb_titles (store : List CatalogTitle) (titles : List TitleRecord)
    (rating_map : String → Option Rat) : MergeState CatalogTitle :=
  titles.foldl (upsertImdbTitleStep rating_map) { store := store, created := 0, updated := 0 }

/-- The WHERE clause of the episode lookup in `upsert_imdb_episodes`
(`src/app/bulk_ingest.py` lines 211-224): catalog_id, season, episode AND
title, all at once (SQLAlchemy renders comparison against a Python `None`
as IS NULL, i.e. plain `Option` equality). -/
def imdbEpisodeMatches (catalog_id : Int) (season_number episode_number : Option Int)
    (title : String) (e : Episode) : Bool :=
  decide (e.catalog_id = catalog_id ∧ e.season_number = season_number ∧
          e.episode_number = episode_number ∧ e.title = title)

/-- Model of `str(title_record.start_year) if title_record.start_year else None`
(Python truthiness: `0` also maps to `None`). -/
def strOfYear : Option Int → Option String
  | none => none
  | some n => if n ≠ 0 then some (toString n) else none

/-- The field-merge block of `upsert_imdb_episodes`
(`src/app/bulk_ingest.py` lines 225-231): fill air_date from the start year
when the stored air_date is falsy. -/
def mergeImdbEpisode (existing : Episode) (tr : EpisodeTitleRecord) : Episode × Bool :=
  if truthyInt tr.start_year && !truthyStr existing.air_date then
    ({ existing with air_date := strOfYear tr.start_year }, true)
  else (existing, false)

/-- The row built on the no-match path of `upsert_imdb_episodes`
(`src/app/bulk_ingest.py` lines 233-244). -/
def newImdbEpisode (catalog_id : Int) (ep : EpisodeRecord) (tr : EpisodeTitleRecord) : Episode :=
  { catalog_id := catalog_id
    title := tr.title
    season_number := ep.season_number
    episode_number := ep.episode_number
    air_date := strOfYear tr.start_year
    description := none
    source := "imdb"
    source_url := some ("https://www.imdb.com/title/" ++ ep.tconst ++ "/") }

/-- One iteration of the loop in `upsert_imdb_episodes`
(`src/app/bulk_ingest.py` lines 202-245): skips on falsy tconst, falsy
parent, unmapped or falsy catalog id, or missing title record. -/
def upsertImdbEpisodeStep (catalog_lookup : String → Option Int)
    (episode_titles : String → Option EpisodeTitleRecord)
    (st : MergeState Episode) (ep : EpisodeRecord) : MergeState Episode :=
  if ep.tconst = "" ∨ ep.parent_tconst = "" then st
  else
    match catalog_lookup ep.parent_tconst with
    | none => st
    | some catalog_id =>
        if catalog_id = 0 then st
        else
          match episode_titles ep.tconst with
          | none => st
          | some tr =>
              match st.store.find? (imdbEpisodeMatches catalog_id ep.season_number ep.episode_number tr.title) with
              | some existing =>
                  { st with
                      store := updateFirstWith
                        (imdbEpisodeMatches catalog_id ep.season_number ep.episode_number tr.title)
                        (fun e => (mergeImdbEpisode e tr).1) st.store
                      updated := if (mergeImdbEpisode existing tr).2 then st.updated + 1 else st.updated }
              | none =>
                  { st with
                      store := st.store ++ [newImdbEpisode catalog_id ep tr]
                      created := st.created + 1 }

/-- Embedding of `bulk_ingest.upsert_imdb_episodes`
(`src/app/bulk_ingest.py` lines 194-247). -/
def upsert_imdb_episodes (store : List Episode) (catalog_lookup : String → Option Int)
    (episode_map : List EpisodeRecord)
    (episode_titles : String → Option EpisodeTitleRecord) : MergeState Episode :=
  episode_map.foldl (upsertImdbEpisodeStep catalog_lookup episode_titles)
    { store := store, created := 0, updated := 0 }

/-- A stored optional text value in normal form: absent, or a trimmed string
accepted by the validity predicate. -/
def normOptText (v : Option String) : Bool :=
  match v with
  | none => true
  | some s => is_valid_text (some s) && decide (pstrip s = s)

/-- The quality-evaluated text fields of a stored CatalogTitle row are in
normal form. -/
def catalogTextOk (r : CatalogTitle) : Bool :=
  normOptText r.description && normOptText r.release_date

/-- The quality-evaluated text fields of a stored Episode row are in normal
form (the required title is itself trimmed and valid). -/
def episodeTextOk (e : Episode) : Bool :=
  is_valid_text (some e.title) && decide (pstrip e.title = e.title) &&
    normOptText e.air_date && normOptText e.description

/-- Every row of a catalog store has normalized text fields. -/
def catalogStoreOk (store : List CatalogTitle) : Bool :=
  store.all catalogTextOk

/-- Every row of an episode store has normalized text fields. -/
def episodeStoreOk (store : List Episode) : Bool :=
  store.all episodeTextOk

/-- Two catalog rows collide on the natural dedup key
(title, source, media_type). -/
def sameCatalogKey (a b : CatalogTitle) : Bool :=
  decide (a.title = b.title ∧ a.source = b.source ∧ a.media_type = b.media_type)

/-- At most one row per (title, source, media_type) triple. -/
def uniqueCatalogKeys : List CatalogTitle → Bool
  | [] => true
  | x :: xs => xs.all (fun y => !sameCatalogKey x y) && uniqueCatalogKeys xs

/-- Some stored row would be found by the lookup for `item`. -/
def hasCatalogMatch (store : List CatalogTitle) (item : CatalogItem) : Bool :=
  store.any (catalogMatches item)

/-! Concrete records used by the closed theorems below. -/

/-- A catalog item whose title carries leading whitespace (valid, untrimmed). -/
def itemPadAB : CatalogItem :=
  { title := " AB", media_type := "movie", year := none, source := "w", source_url := none,
    external_id := none, description := none, release_date := none, rating := none }

/-- The same catalog item with the title already trimmed. -/
def itemAB : CatalogItem :=
  { title := "AB", media_type := "movie", year := none, source := "w", source_url := none,
    external_id := none, description := none, release_date := none, rating := none }

/-- A stored catalog row with the trimmed key ("AB", "w", "movie"). -/
def titleAB : CatalogTitle :=
  { title := "AB", media_type := "movie", year := none, source := "w", source_url := none,
    external_id := none, description := none, release_date := none, rating := none }

/-- A stored catalog row rated 7.0 in the scrape-source key space. -/
def ratingTitle7 : CatalogTitle :=
  { title := "AB", media_type := "movie", year := none, source := "s", source_url := none,
    external_id := none, description := none, release_date := none, rating := some 7 }

/-- An incoming item for the same key rated 8.2 (the rational 41/5). -/
def ratingItem82 : CatalogItem :=
  { title := "AB", media_type := "movie", year := none, source := "s", source_url := none,
    external_id := none, description := none, release_date := none, rating := some (mkRat 41 5) }

/-- An incoming item for the same key rated 6.0. -/
def ratingItem6 : CatalogItem :=
  { title := "AB", media_type := "movie", year := none, source := "s", source_url := none,
    external_id := none, description := none, release_date := none, rating := some 6 }

/-- A stored IMDb-sourced catalog row with external id tt1 and rating 7.0. -/
def bulkTitle7 : CatalogTitle :=
  { title := "AB", media_type := "movie", year := none, source := "imdb", source_url := none,
    external_id := some "tt1", description := none, release_date := none, rating := some 7 }

/-- A bulk TSV title record for tt1. -/
def bulkRecord : TitleRecord :=
  { tconst := "tt1", title_type := "movie", primary_title := "AB", start_year := none, end_year := none }

/-- A rating map sending tt1 to 8.2 (the rational 41/5). -/
def bulkRatingMap : String → Option Rat :=
  fun t => if t = "tt1" then some (mkRat 41 5) else none

/-- A stored episode of catalog 1 at season 1 episode 1, titled differently
from the incoming bulk record. -/
def epOld : Episode :=
  { catalog_id := 1, title := "Old AB", season_number := some 1, episode_number := some 1,
    air_date := none, description := none, source := "imdb", source_url := some "u" }

/-- A bulk episode-map record for tt2, child of tt0, season 1 episode 1. -/
def epRec : EpisodeRecord :=
  { tconst := "tt2", parent_tconst := "tt0", season_number := some 1, episode_number := some 1 }

/-- A catalog lookup mapping tt0 to catalog id 1. -/
def epLookup : String → Option Int :=
  fun p => if p = "tt0" then some 1 else none

/-- An episode-title map giving tt2 the title New CD. -/
def epTitles : String → Option EpisodeTitleRecord :=
  fun t => if t = "tt2" then some { tconst := "tt2", title := "New CD", start_year := some 2020 }
           else none

/-- An unnumbered episode item whose title carries leading whitespace. -/
def eItemPad : EpisodeItem :=
  { title := " AB", season_number := none, episode_number := none, air_date := none,
    description := none, source := "s", source_url := "u" }

/-- An unnumbered episode item with a trimmed valid title. -/
def eItemAB : EpisodeItem :=
  { title := "AB", season_number := none, episode_number := none, air_date := none,
    description := none, source := "s", source_url := "u" }

/-- A catalog item with a blank title (fails the validity predicate). -/
def blankCatalogItem : CatalogItem :=
  { title := "", media_type := "movie", year := none, source := "s", source_url := none,
    external_id := none, description := none, release_date := none, rating := none }

/-- An episode item with a blank title (fails the validity predicate). -/
def blankEpisodeItem : EpisodeItem :=
  { title := "", season_number := none, episode_number := none, air_date := none,
    description := none, source := "s", source_url := "u" }

/-- A stored catalog row whose year is the falsy-but-present value 0. -/
def yearZeroTitle : CatalogTitle :=
  { title := "AB", media_type := "m", year := some 0, source := "s", source_url := none,
    external_id := none, description := none, release_date := none, rating := none }

/-- An incoming item for the same key with year 1999. -/
def yearItem1999 : CatalogItem :=
  { title := "AB", media_type := "m", year := some 1999, source := "s", source_url := none,
    external_id := none, description := none, release_date := none, rating := none }

/-- A stored catalog row with populated year 2001. -/
def year2001Title : CatalogTitle :=
  { title := "AB", media_type := "m", year := some 2001, source := "s", source_url := none,
    external_id := none, description := none, release_date := none, rating := none }

/-- An incoming item matching titleAB that supplies a description. -/
def descItem : CatalogItem :=
  { title := "AB", media_type := "movie", year := none, source := "w", source_url := none,
    external_id := none, description := some "a new description", release_date := none,
    rating := none }

/-- A stored episode of catalog 1 titled AB with no source_url. -/
def epStored : Episode :=
  { catalog_id := 1, title := "AB", season_number := none, episode_number := none,
    air_date := none, description := none, source := "s", source_url := none }

/-- A stored episode of catalog 1 with trimmed valid title AB. -/
def epTitled : Episode :=
  { catalog_id := 1, title := "AB", season_number := none, episode_number := none,
    air_date := none, description := none, source := "s", source_url := some "u" }

/-- An episode item with the strictly longer valid title ABCD. -/
def eItemLong : EpisodeItem :=
  { title := "ABCD", season_number := none, episode_number := none, air_date := none,
    description := none, source := "s", source_url := "u" }

/-- A catalog item with untrimmed description and an invalid release date. -/
def messyItem : CatalogItem :=
  { title := "AB", media_type := "movie", year := none, source := "w", source_url := none,
    external_id := none, description := some "  padded text  ", release_date := some " x ",
    rating := none }

/-- An episode item with untrimmed title and untrimmed air date. -/
def messyEpItem : EpisodeItem :=
  { title := " AB  ", season_number := none, episode_number := none,
    air_date := some "  2020-01-01  ", description := some " y ", source := "s",
    source_url := "u" }

/-! General lemmas about the trimming model. -/

theorem dropWhile_head?_false (p : α → Bool) :
    ∀ (l : List α) (a : α), (l.dropWhile p).head? = some a → p a = false := by
  intro l
  induction l with
  | nil => intro a h; simp [List.dropWhile] at h
  | cons x xs ih =>
    intro a h
    by_cases hx : p x
    · rw [List.dropWhile_cons_of_pos hx] at h
      exact ih a h
    · rw [List.dropWhile_cons_of_neg hx] at h
      simp at h
      subst h
      simpa using hx

theorem dropWhile_eq_self_of_head? (p : α → Bool) (l : List α)
    (h : ∀ a, l.head? = some a → p a = false) : l.dropWhile p = l := by
  cases l with
  | nil => rfl
  | cons x xs => exact List.dropWhile_cons_of_neg (by simpa using h x rfl)

theorem stripChars_head?_false (l : List Char) (a : Char)
    (h : (stripChars l).head? = some a) : a.isWhitespace = false := by
  unfold stripChars at h
  obtain ⟨t, ht⟩ := List.dropWhile_suffix (l := (l.dropWhile Char.isWhitespace).reverse)
    Char.isWhitespace
  have hA : l.dropWhile Char.isWhitespace =
      ((l.dropWhile Char.isWhitespace).reverse.dropWhile Char.isWhitespace).reverse ++
        t.reverse := by
    have h2 := congrArg List.reverse ht
    rw [List.reverse_append, List.reverse_reverse] at h2
    exact h2.symm
  have hhead : (l.dropWhile Char.isWhitespace).head? = some a := by
    rw [hA]
    cases hB : ((l.dropWhile Char.isWhitespace).reverse.dropWhile Char.isWhitespace).reverse with
    | nil => rw [hB] at h; simp at h
    | cons c cs =>
      rw [hB] at h
      simp at h
      simp [h]
  exact dropWhile_head?_false Char.isWhitespace l a hhead

theorem reverse_stripChars_head?_false (l : List Char) (a : Char)
    (h : (stripChars l).reverse.head? = some a) : a.isWhitespace = false := by
  unfold stripChars at h
  rw [List.reverse_reverse] at h
  exact dropWhile_head?_false Char.isWhitespace _ a h

theorem stripChars_eq_self (m : List Char)
    (h1 : m.dropWhile Char.isWhitespace = m)
    (h2 : m.reverse.dropWhile Char.isWhitespace = m.reverse) : stripChars m = m := by
  unfold stripChars
  rw [h1, h2, List.reverse_reverse]

theorem stripChars_idem (l : List Char) : stripChars (stripChars l) = stripChars l := by
  refine stripChars_eq_self _ ?_ ?_
  · exact dropWhile_eq_self_of_head? _ _ (fun a ha => stripChars_head?_false l a ha)
  · exact dropWhile_eq_self_of_head? _ _ (fun a ha => reverse_stripChars_head?_false l a ha)

theorem pstrip_idem (s : String) : pstrip (pstrip s) = pstrip s :=
  String.ext (stripChars_idem s.data)

theorem pstrip_empty : pstrip "" = "" := rfl

theorem is_valid_text_some_iff (v : String) :
    is_valid_text (some v) = true ↔
      2 ≤ (pstrip v).length ∧ (pstrip v).data.any Char.isAlphanum = true := by
  constructor
  · intro h
    simp only [is_valid_text] at h
    split_ifs at h with h1 h2 h3
    refine ⟨by omega, ?_⟩
    simpa using h3
  · rintro ⟨h2, ha⟩
    have hv : ¬ v = "" := by
      intro hv
      subst hv
      have : pstrip "" = "" := rfl
      rw [this] at h2
      simp [String.length] at h2
    simp only [is_valid_text]
    rw [if_neg hv, if_neg (by omega), if_neg (by simp [ha])]

theorem better_text_of_invalid (cur cand : Option String)
    (h : is_valid_text cand = false) : better_text cur cand = cur := by
  simp [better_text, h]

theorem better_text_valid_invalid (cur : Option String) (c : String)
    (hc : is_valid_text (some c) = true) (hcur : is_valid_text cur = false) :
    better_text cur (some c) = some (pstrip c) := by
  simp [better_text, hc, hcur]

theorem better_text_both_valid (cur : Option String) (c : String)
    (hc : is_valid_text (some c) = true) (hcur : is_valid_text cur = true) :
    better_text cur (some c) =
      if (pstrip (cur.getD "")).length < (pstrip c).length then some (pstrip c) else cur := by
  simp [better_text, hc, hcur]

theorem is_valid_text_pstrip (s : String) (h : is_valid_text (some s) = true) :
    is_valid_text (some (pstrip s)) = true := by
  rw [is_valid_text_some_iff] at h ⊢
  rwa [pstrip_idem]

theorem is_valid_text_isSome (v : Option String) (h : is_valid_text v = true) :
    ∃ s, v = some s := by
  cases v with
  | none => simp [is_valid_text] at h
  | some s => exact ⟨s, rfl⟩

theorem better_text_cases (cur cand : Option String) :
    better_text cur cand = cur ∨
      ∃ c, cand = some c ∧ is_valid_text (some c) = true ∧
        better_text cur cand = some (pstrip c) := by
  by_cases hc : is_valid_text cand = true
  · obtain ⟨c, rfl⟩ := is_valid_text_isSome cand hc
    by_cases hcur : is_valid_text cur = true
    · rw [better_text_both_valid cur c hc hcur]
      by_cases hlen : (pstrip (cur.getD "")).length < (pstrip c).length
      · right
        exact ⟨c, rfl, hc, by rw [if_pos hlen]⟩
      · left
        rw [if_neg hlen]
    · right
      exact ⟨c, rfl, hc, better_text_valid_invalid cur c hc (Bool.not_eq_true _ ▸ hcur)⟩
  · left
    exact better_text_of_invalid cur cand (Bool.not_eq_true _ ▸ hc)

theorem better_text_some_left (t : String) (cand : Option String) :
    ∃ s, better_text (some t) cand = some s := by
  rcases better_text_cases (some t) cand with h | ⟨c, _, _, h⟩
  · exact ⟨t, h⟩
  · exact ⟨pstrip c, h⟩

theorem normOptText_better_text (cur cand : Option String) (h : normOptText cur = true) :
    normOptText (better_text cur cand) = true := by
  rcases better_text_cases cur cand with he | ⟨c, _, hv, he⟩
  · rwa [he]
  · rw [he]
    simp [normOptText, is_valid_text_pstrip c hv, pstrip_idem]

theorem updateFirstWith_any_congr (q : α → Bool) (f : α → α) (p : α → Bool)
    (hf : ∀ a, p (f a) = p a) : ∀ l : List α, (updateFirstWith q f l).any p = l.any p := by
  intro l
  induction l with
  | nil => rfl
  | cons x xs ih =>
    by_cases hx : q x
    · simp [updateFirstWith, hx, hf]
    · simp [updateFirstWith, hx, ih]

theorem updateFirstWith_all_congr (q : α → Bool) (f : α → α) (p : α → Bool)
    (hf : ∀ a, p (f a) = p a) : ∀ l : List α, (updateFirstWith q f l).all p = l.all p := by
  intro l
  induction l with
  | nil => rfl
  | cons x xs ih =>
    by_cases hx : q x
    · simp [updateFirstWith, hx, hf]
    · simp [updateFirstWith, hx, ih]

theorem updateFirstWith_all_pres (q : α → Bool) (f : α → α) (p : α → Bool)
    (hf : ∀ a, p a = true → p (f a) = true) :
    ∀ l : List α, l.all p = true → (updateFirstWith q f l).all p = true := by
  intro l
  induction l with
  | nil => intro h; exact h
  | cons x xs ih =>
    intro h
    rw [List.all_cons, Bool.and_eq_true] at h
    by_cases hx : q x
    · simp [updateFirstWith, hx, hf x h.1, h.2]
    · simp [updateFirstWith, hx, h.1, ih h.2]

theorem any_of_find?_eq_some (p : α → Bool) (l : List α) (a : α)
    (h : l.find? p = some a) : l.any p = true :=
  List.any_eq_true.mpr ⟨a, List.mem_of_find?_eq_some h, List.find?_some h⟩

theorem find?_isSome_of_any (p : α → Bool) (l : List α) (h : l.any p = true) :
    ∃ a, l.find? p = some a := by
  cases hf : l.find? p with
  | some a => exact ⟨a, rfl⟩
  | none =>
    obtain ⟨x, hx, hp⟩ := List.any_eq_true.mp h
    exact absurd hp (by simpa using List.find?_eq_none.mp hf x hx)

theorem mergeCatalog_title (e : CatalogTitle) (i : CatalogItem) :
    (mergeCatalog e i).1.title = e.title := rfl

theorem mergeCatalog_source (e : CatalogTitle) (i : CatalogItem) :
    (mergeCatalog e i).1.source = e.source := rfl

theorem mergeCatalog_media_type (e : CatalogTitle) (i : CatalogItem) :
    (mergeCatalog e i).1.media_type = e.media_type := rfl

theorem mergeEpisode_catalog_id (e : Episode) (i : EpisodeItem) :
    (mergeEpisode e i).1.catalog_id = e.catalog_id := rfl

theorem catalogMatches_mergeCatalog (j i : CatalogItem) (a : CatalogTitle) :
    catalogMatches j ((mergeCatalog a i).1) = catalogMatches j a := rfl

theorem truthyInt_ne {a b : Option Int} (ha : truthyInt a = true)
    (hb : truthyInt b = false) : a ≠ b := by
  intro h
  rw [h, hb] at ha
  cases ha

theorem truthyStr_ne {a b : Option String} (ha : truthyStr a = true)
    (hb : truthyStr b = false) : a ≠ b := by
  intro h
  rw [h, hb] at ha
  cases ha

theorem rating_upd_ne {a b : Option Rat}
    (h : (a.isSome && (b.isNone || ratingGt a b)) = true) : a ≠ b := by
  intro he
  subst he
  cases a with
  | none => simp at h
  | some x => simp [ratingGt] at h

theorem url_upd_ne {u : String} {b : Option String}
    (hu : ¬ u = "") (hb : truthyStr b = false) : some u ≠ b := by
  cases b with
  | none => simp
  | some s =>
    simp [truthyStr] at hb
    simp [hb]
    intro he
    exact hu he

theorem mergeCatalog_changed_iff (e : CatalogTitle) (i : CatalogItem) :
    (mergeCatalog e i).2 = true ↔ (mergeCatalog e i).1 ≠ e := by
  obtain ⟨t, mt, y, src, su, ei, d, rd, r⟩ := e
  constructor
  · intro hflag heq
    simp only [mergeCatalog] at hflag heq
    rw [CatalogTitle.mk.injEq] at heq
    obtain ⟨-, -, hy, -, hsu, hei, hd, hrd, hr⟩ := heq
    rw [Bool.or_eq_true, Bool.or_eq_true, Bool.or_eq_true, Bool.or_eq_true,
      Bool.or_eq_true] at hflag
    rcases hflag with ((((ha | hb) | hc) | hd') | he') | hf
    · rw [if_pos ha] at hy
      rw [Bool.and_eq_true] at ha
      obtain ⟨ha1, ha2⟩ := ha
      exact truthyInt_ne ha1 (by simpa using ha2) hy
    · rw [if_pos hb] at hsu
      rw [Bool.and_eq_true] at hb
      obtain ⟨hb1, hb2⟩ := hb
      exact truthyStr_ne hb1 (by simpa using hb2) hsu
    · rw [if_pos hc] at hei
      rw [Bool.and_eq_true] at hc
      obtain ⟨hc1, hc2⟩ := hc
      exact truthyStr_ne hc1 (by simpa using hc2) hei
    · rw [if_pos hd'] at hd
      exact (of_decide_eq_true hd') hd
    · rw [if_pos he'] at hrd
      exact (of_decide_eq_true he') hrd
    · rw [if_pos hf] at hr
      exact rating_upd_ne hf hr
  · intro hne
    by_contra hflag
    rw [Bool.not_eq_true] at hflag
    simp only [mergeCatalog] at hflag
    rw [Bool.or_eq_false_iff, Bool.or_eq_false_iff, Bool.or_eq_false_iff,
      Bool.or_eq_false_iff, Bool.or_eq_false_iff] at hflag
    obtain ⟨⟨⟨⟨⟨ha, hb⟩, hc⟩, hd'⟩, he'⟩, hf⟩ := hflag
    exact hne (by simp only [mergeCatalog, ha, hb, hc, hd', he', hf,
      Bool.false_eq_true, if_false])

theorem mergeEpisode_changed_iff (e : Episode) (i : EpisodeItem) :
    (mergeEpisode e i).2 = true ↔ (mergeEpisode e i).1 ≠ e := by
  obtain ⟨cid, t, sn, en, ad, d, src, su⟩ := e
  constructor
  · intro hflag heq
    simp only [mergeEpisode] at hflag heq
    rw [Episode.mk.injEq] at heq
    obtain ⟨-, hti, -, -, had, hd, -, hsu⟩ := heq
    rw [Bool.or_eq_true, Bool.or_eq_true, Bool.or_eq_true] at hflag
    rcases hflag with ((ha | hb) | hc) | hf
    · rw [if_pos ha] at hti
      obtain ⟨s, hs⟩ := better_text_some_left t (some i.title)
      rw [hs] at hti
      rw [Option.getD_some] at hti
      exact (of_decide_eq_true ha) (by rw [hs, hti])
    · rw [if_pos hb] at had
      exact (of_decide_eq_true hb) had
    · rw [if_pos hc] at hd
      exact (of_decide_eq_true hc) hd
    · rw [if_pos hf] at hsu
      rw [Bool.and_eq_true] at hf
      obtain ⟨hf1, hf2⟩ := hf
      exact url_upd_ne (of_decide_eq_true hf1) (by simpa using hf2) hsu
  · intro hne
    by_contra hflag
    rw [Bool.not_eq_true] at hflag
    simp only [mergeEpisode] at hflag
    rw [Bool.or_eq_false_iff, Bool.or_eq_false_iff, Bool.or_eq_false_iff] at hflag
    obtain ⟨⟨⟨ha, hb⟩, hc⟩, hf⟩ := hflag
    exact hne (by simp only [mergeEpisode, ha, hb, hc, hf, Bool.false_eq_true, if_false])

/-! Step-shape lemmas for the two merge engines. -/

theorem upsertCatalogStep_invalid (st : MergeState CatalogTitle) (x : CatalogItem)
    (h : is_valid_text (some x.title) = false) : upsertCatalogStep st x = st := by
  simp [upsertCatalogStep, h]

theorem upsertCatalogStep_found (st : MergeState CatalogTitle) (x : CatalogItem)
    (e : CatalogTitle) (hv : is_valid_text (some x.title) = true)
    (hf : st.store.find? (catalogMatches x) = some e) :
    upsertCatalogStep st x =
      { st with
          store := updateFirstWith (catalogMatches x) (fun a => (mergeCatalog a x).1) st.store
          updated := if (mergeCatalog e x).2 then st.updated + 1 else st.updated } := by
  simp [upsertCatalogStep, hv, hf]

theorem upsertCatalogStep_notfound (st : MergeState CatalogTitle) (x : CatalogItem)
    (hv : is_valid_text (some x.title) = true)
    (hf : st.store.find? (catalogMatches x) = none) :
    upsertCatalogStep st x =
      { st with store := st.store ++ [newCatalogTitle x], created := st.created + 1 } := by
  simp [upsertCatalogStep, hv, hf]

theorem upsertEpisodeStep_invalid (cid : Int) (st : MergeState Episode) (x : EpisodeItem)
    (h : is_valid_text (some x.title) = false) : upsertEpisodeStep cid st x = st := by
  simp [upsertEpisodeStep, h]

theorem upsertEpisodeStep_found (cid : Int) (st : MergeState Episode) (x : EpisodeItem)
    (e : Episode) (hv : is_valid_text (some x.title) = true)
    (hf : st.store.find? (episodeMatches cid x) = some e) :
    upsertEpisodeStep cid st x =
      { st with
          store := updateFirstWith (episodeMatches cid x) (fun a => (mergeEpisode a x).1) st.store
          updated := if (mergeEpisode e x).2 then st.updated + 1 else st.updated } := by
  simp [upsertEpisodeStep, hv, hf]

theorem upsertEpisodeStep_notfound (cid : Int) (st : MergeState Episode) (x : EpisodeItem)
    (hv : is_valid_text (some x.title) = true)
    (hf : st.store.find? (episodeMatches cid x) = none) :
    upsertEpisodeStep cid st x =
      { st with store := st.store ++ [newEpisode cid x], created := st.created + 1 } := by
  simp [upsertEpisodeStep, hv, hf]

theorem mergeEpisode_title (e : Episode) (i : EpisodeItem) :
    (mergeEpisode e i).1.title =
      (better_text (some e.title) (some i.title)).getD e.title := by
  show (if decide (better_text (some e.title) (some i.title) ≠ some e.title) = true
        then (better_text (some e.title) (some i.title)).getD e.title
        else e.title) = (better_text (some e.title) (some i.title)).getD e.title
  by_cases hc : decide (better_text (some e.title) (some i.title) ≠ some e.title) = true
  · rw [if_pos hc]
  · rw [if_neg hc]
    have heq : better_text (some e.title) (some i.title) = some e.title := by
      by_contra hne
      exact hc (decide_eq_true hne)
    rw [heq, Option.getD_some]

theorem better_text_refl (t : String) (hv : is_valid_text (some t) = true) :
    better_text (some t) (some t) = some t := by
  rw [better_text_both_valid (some t) t hv hv]
  simp

/-- Claim C1: the quality evaluator better_text conforms to the rule stated in
the spec for every pair of optional-string inputs: invalid candidates are
rejected, a valid candidate replaces an invalid or absent current (trimmed),
and with both valid the strictly longer trimmed string wins with ties kept by
current. -/
theorem better_text_conforms_to_spec (current candidate : Option String) :
    better_text current candidate = better_text_spec current candidate := by
  cases candidate with
  | none =>
    rw [better_text_of_invalid current none rfl]
    rfl
  | some c =>
    by_cases hc : is_valid_text (some c) = true
    · cases current with
      | none =>
        rw [better_text_valid_invalid none c hc rfl]
        simp [better_text_spec, hc]
      | some cur =>
        by_cases hcur : is_valid_text (some cur) = true
        · rw [better_text_both_valid (some cur) c hc hcur]
          simp [better_text_spec, hc, hcur]
        · have hcur' : is_valid_text (some cur) = false := Bool.not_eq_true _ ▸ hcur
          rw [better_text_valid_invalid (some cur) c hc hcur']
          simp [better_text_spec, hc, hcur']
    · have hc' : is_valid_text (some c) = false := Bool.not_eq_true _ ▸ hc
      rw [better_text_of_invalid current (some c) hc']
      cases current with
      | none => simp [better_text_spec, hc']
      | some cur => simp [better_text_spec, hc']

/-- Claim C6: an item whose title fails the validity predicate is silently
skipped by both merge engines: removing it from the stream changes neither
the resulting store nor the created/updated tallies. -/
theorem invalid_title_skipped :
    (∀ (store : List CatalogTitle) (xs ys : List CatalogItem) (item : CatalogItem),
        is_valid_text (some item.title) = false →
        upsert_catalog_items store (xs ++ item :: ys) = upsert_catalog_items store (xs ++ ys)) ∧
    (∀ (store : List Episode) (catalog_id : Int) (xs ys : List EpisodeItem) (item : EpisodeItem),
        is_valid_text (some item.title) = false →
        upsert_episode_items store catalog_id (xs ++ item :: ys) =
          upsert_episode_items store catalog_id (xs ++ ys)) := by
  constructor
  · intro store xs ys item h
    unfold upsert_catalog_items
    rw [List.foldl_append, List.foldl_append, List.foldl_cons,
      upsertCatalogStep_invalid _ item h]
  · intro store catalog_id xs ys item h
    unfold upsert_episode_items
    rw [List.foldl_append, List.foldl_append, List.foldl_cons,
      upsertEpisodeStep_invalid catalog_id _ item h]

/-- Witness for C6 at a concrete blank-titled item in each engine. -/
theorem invalid_title_skipped_w :
    (is_valid_text (some blankCatalogItem.title) = false ∧
      upsert_catalog_items [] ([] ++ blankCatalogItem :: []) = upsert_catalog_items [] ([] ++ [])) ∧
    (is_valid_text (some blankEpisodeItem.title) = false ∧
      upsert_episode_items [] 1 ([] ++ blankEpisodeItem :: []) = upsert_episode_items [] 1 ([] ++ [])) :=
  ⟨⟨by decide, invalid_title_skipped.1 [] [] [] blankCatalogItem (by decide)⟩,
   ⟨by decide, invalid_title_skipped.2 [] 1 [] [] blankEpisodeItem (by decide)⟩⟩

/-- Counterexample to claim C7 as stated: a populated (non-absent) year 0 is
overwritten, because the source tests Python truthiness rather than absence. -/
theorem fill_only_counterexample :
    yearZeroTitle.year = some 0 ∧ yearZeroTitle.year ≠ none ∧
    (upsert_catalog_items [yearZeroTitle] [yearItem1999]).store.map CatalogTitle.year =
      [some 1999] := by
  refine ⟨rfl, by decide, by decide⟩

/-- Claim C7 as amended: year, source_url and external_id are written only when
the current value is falsy (absent, zero year, or empty string) and the
incoming value is truthy; a truthy populated value is never overwritten, and in
particular an existing year 2001 survives an incoming 1999. -/
theorem fill_only_fields :
    (∀ (e : CatalogTitle) (i : CatalogItem),
        truthyInt e.year = true → (mergeCatalog e i).1.year = e.year) ∧
    (∀ (e : CatalogTitle) (i : CatalogItem),
        truthyStr e.source_url = true → (mergeCatalog e i).1.source_url = e.source_url) ∧
    (∀ (e : CatalogTitle) (i : CatalogItem),
        truthyStr e.external_id = true → (mergeCatalog e i).1.external_id = e.external_id) ∧
    (∀ (e : CatalogTitle) (i : CatalogItem),
        (mergeCatalog e i).1.year =
            (if truthyInt i.year && !truthyInt e.year then i.year else e.year) ∧
          (mergeCatalog e i).1.source_url =
            (if truthyStr i.source_url && !truthyStr e.source_url then i.source_url
             else e.source_url) ∧
          (mergeCatalog e i).1.external_id =
            (if truthyStr i.external_id && !truthyStr e.external_id then i.external_id
             else e.external_id)) ∧
    (upsert_catalog_items [year2001Title] [yearItem1999]).store.map CatalogTitle.year =
      [some 2001] := by
  refine ⟨?_, ?_, ?_, fun e i => ⟨rfl, rfl, rfl⟩, by decide⟩
  · intro e i h
    show (if truthyInt i.year && !truthyInt e.year then i.year else e.year) = e.year
    rw [h]
    simp
  · intro e i h
    show (if truthyStr i.source_url && !truthyStr e.source_url then i.source_url
          else e.source_url) = e.source_url
    rw [h]
    simp
  · intro e i h
    show (if truthyStr i.external_id && !truthyStr e.external_id then i.external_id
          else e.external_id) = e.external_id
    rw [h]
    simp

/-- Witness for the amended C7 at a concrete populated year. -/
theorem fill_only_fields_w :
    truthyInt year2001Title.year = true ∧
    (mergeCatalog year2001Title yearItem1999).1.year = year2001Title.year :=
  ⟨by decide, fill_only_fields.1 year2001Title yearItem1999 (by decide)⟩

/-- Counterexample to claim C3 as stated: in the bulk IMDb TSV ingest path an
incoming rating 8.2 does not overwrite a present stored rating 7.0 — that path
only fills an absent rating. -/
theorem rating_policy_counterexample :
    bulkTitle7.rating = some 7 ∧ bulkRatingMap bulkRecord.tconst = some (mkRat 41 5) ∧
    (7 : Rat) < mkRat 41 5 ∧
    (upsert_imdb_titles [bulkTitle7] [bulkRecord] bulkRatingMap).store.map CatalogTitle.rating =
      [some 7] := by
  refine ⟨rfl, by decide, by decide, by decide⟩

/-- Claim C3 as amended: the prefer-higher rule (overwrite iff the incoming
rating is present and the stored one is absent or strictly smaller) governs
upsert_catalog_items, where 7.0 vs 8.2 yields 8.2 and 7.0 vs 6.0 stays 7.0;
the bulk IMDb ingest path instead only fills an absent stored rating. -/
theorem rating_policy :
    (∀ (e : CatalogTitle) (i : CatalogItem),
        (mergeCatalog e i).1.rating =
          (if i.rating.isSome && (e.rating.isNone || ratingGt i.rating e.rating)
           then i.rating else e.rating)) ∧
    (∀ (e : CatalogTitle) (record : TitleRecord) (rating : Option Rat),
        (mergeImdbTitle e record rating).1.rating =
          (if rating.isSome && e.rating.isNone then rating else e.rating)) ∧
    (upsert_catalog_items [ratingTitle7] [ratingItem82]).store.map CatalogTitle.rating =
      [some (mkRat 41 5)] ∧
    (upsert_catalog_items [ratingTitle7] [ratingItem6]).store.map CatalogTitle.rating =
      [some 7] :=
  ⟨fun e i => rfl, fun e record rating => rfl, by decide, by decide⟩

/-- Claim C9: the catalog merge never modifies the stored title, whereas the
episode merge rewrites the stored title exactly as the quality evaluator
dictates; on a normalized stored title the replacement happens exactly when
the incoming title is valid and strictly longer after trimming. -/
theorem title_mutability :
    (∀ (e : CatalogTitle) (i : CatalogItem), (mergeCatalog e i).1.title = e.title) ∧
    (∀ (e : Episode) (i : EpisodeItem),
        (mergeEpisode e i).1.title =
          (better_text (some e.title) (some i.title)).getD e.title) ∧
    (∀ (e : Episode) (i : EpisodeItem),
        is_valid_text (some e.title) = true → pstrip e.title = e.title →
        ((mergeEpisode e i).1.title ≠ e.title ↔
          is_valid_text (some i.title) = true ∧
            e.title.length < (pstrip i.title).length)) := by
  refine ⟨fun e i => rfl, mergeEpisode_title, ?_⟩
  intro e i hv htr
  rw [mergeEpisode_title]
  constructor
  · intro hne
    by_cases hvi : is_valid_text (some i.title) = true
    · refine ⟨hvi, ?_⟩
      have hb := better_text_both_valid (some e.title) i.title hvi hv
      rw [Option.getD_some] at hb
      by_cases hlen : (pstrip e.title).length < (pstrip i.title).length
      · rwa [htr] at hlen
      · rw [hb, if_neg hlen, Option.getD_some] at hne
        exact absurd rfl hne
    · have hvi' : is_valid_text (some i.title) = false := Bool.not_eq_true _ ▸ hvi
      rw [better_text_of_invalid _ _ hvi', Option.getD_some] at hne
      exact absurd rfl hne
  · rintro ⟨hvi, hlen⟩
    have hb := better_text_both_valid (some e.title) i.title hvi hv
    rw [Option.getD_some] at hb
    rw [hb, if_pos (by rwa [htr]), Option.getD_some]
    intro heq
    rw [← heq] at hlen
    exact lt_irrefl _ hlen

/-- Witness for C9 at a stored title AB and incoming title ABCD. -/
theorem title_mutability_w :
    (mergeEpisode epTitled eItemLong).1.title ≠ epTitled.title ↔
      is_valid_text (some eItemLong.title) = true ∧
        epTitled.title.length < (pstrip eItemLong.title).length :=
  title_mutability.2.2 epTitled eItemLong (by decide) (by decide)

/-- Claim C8: when a valid incoming item matches an existing record, both
engines add exactly 1 to updated_count when the merged record differs from the
existing one in at least one field, and 0 when no field changed — never once
per changed field. -/
theorem update_counted_once :
    (∀ (store : List CatalogTitle) (c u : Nat) (item : CatalogItem) (e : CatalogTitle),
        is_valid_text (some item.title) = true →
        store.find? (catalogMatches item) = some e →
        (upsertCatalogStep ⟨store, c, u⟩ item).updated =
          u + (if (mergeCatalog e item).1 ≠ e then 1 else 0)) ∧
    (∀ (store : List Episode) (catalog_id : Int) (c u : Nat) (item : EpisodeItem) (e : Episode),
        is_valid_text (some item.title) = true →
        store.find? (episodeMatches catalog_id item) = some e →
        (upsertEpisodeStep catalog_id ⟨store, c, u⟩ item).updated =
          u + (if (mergeEpisode e item).1 ≠ e then 1 else 0)) := by
  constructor
  · intro store c u item e hv hf
    rw [upsertCatalogStep_found ⟨store, c, u⟩ item e hv hf]
    by_cases hch : (mergeCatalog e item).2 = true
    · rw [if_pos ((mergeCatalog_changed_iff e item).mp hch)]
      simp [hch]
    · rw [if_neg (fun hne => hch ((mergeCatalog_changed_iff e item).mpr hne))]
      simp [hch]
  · intro store catalog_id c u item e hv hf
    rw [upsertEpisodeStep_found catalog_id ⟨store, c, u⟩ item e hv hf]
    by_cases hch : (mergeEpisode e item).2 = true
    · rw [if_pos ((mergeEpisode_changed_iff e item).mp hch)]
      simp [hch]
    · rw [if_neg (fun hne => hch ((mergeEpisode_changed_iff e item).mpr hne))]
      simp [hch]

/-- Witness for C8: a matching item that changes one field adds exactly one to
updated_count in each engine. -/
theorem update_counted_once_w :
    ((upsertCatalogStep ⟨[titleAB], 0, 0⟩ descItem).updated =
      0 + (if (mergeCatalog titleAB descItem).1 ≠ titleAB then 1 else 0)) ∧
    ((upsertEpisodeStep 1 ⟨[epStored], 0, 0⟩ eItemAB).updated =
      0 + (if (mergeEpisode epStored eItemAB).1 ≠ epStored then 1 else 0)) :=
  ⟨update_counted_once.1 [titleAB] 0 0 descItem titleAB (by decide) (by decide),
   update_counted_once.2 [epStored] 1 0 0 eItemAB epStored (by decide) (by decide)⟩

/-! Coverage lemmas for the idempotence proof. -/

theorem hasCatalogMatch_step (st : MergeState CatalogTitle) (x j : CatalogItem)
    (h : hasCatalogMatch st.store j = true) :
    hasCatalogMatch (upsertCatalogStep st x).store j = true := by
  by_cases hv : is_valid_text (some x.title) = true
  · cases hfind : st.store.find? (catalogMatches x) with
    | some e =>
      rw [upsertCatalogStep_found st x e hv hfind]
      unfold hasCatalogMatch at h ⊢
      rwa [updateFirstWith_any_congr _ _ _ (fun a => catalogMatches_mergeCatalog j x a)]
    | none =>
      rw [upsertCatalogStep_notfound st x hv hfind]
      unfold hasCatalogMatch at h ⊢
      rw [List.any_append, h]
      rfl
  · rw [upsertCatalogStep_invalid st x (Bool.not_eq_true _ ▸ hv)]
    exact h

theorem hasCatalogMatch_fold (l : List CatalogItem) :
    ∀ (st : MergeState CatalogTitle) (j : CatalogItem),
      hasCatalogMatch st.store j = true →
      hasCatalogMatch (l.foldl upsertCatalogStep st).store j = true := by
  induction l with
  | nil => intro st j h; exact h
  | cons a rest ih =>
    intro st j h
    rw [List.foldl_cons]
    exact ih (upsertCatalogStep st a) j (hasCatalogMatch_step st a j h)

theorem hasCatalogMatch_self (st : MergeState CatalogTitle) (x : CatalogItem)
    (hv : is_valid_text (some x.title) = true) (ht : pstrip x.title = x.title) :
    hasCatalogMatch (upsertCatalogStep st x).store x = true := by
  cases hfind : st.store.find? (catalogMatches x) with
  | some e =>
    exact hasCatalogMatch_step st x x (any_of_find?_eq_some _ _ e hfind)
  | none =>
    rw [upsertCatalogStep_notfound st x hv hfind]
    unfold hasCatalogMatch
    rw [List.any_append, Bool.or_eq_true]
    right
    simp [catalogMatches, newCatalogTitle, ht]

theorem covered_after_pass (items : List CatalogItem) :
    ∀ (st : MergeState CatalogTitle),
      (∀ x ∈ items, pstrip x.title = x.title) →
      ∀ x ∈ items, is_valid_text (some x.title) = true →
        hasCatalogMatch (items.foldl upsertCatalogStep st).store x = true := by
  induction items with
  | nil => intro st _ x hx; exact absurd hx (List.not_mem_nil x)
  | cons a rest ih =>
    intro st htrim x hx hvx
    rw [List.foldl_cons]
    rcases List.mem_cons.mp hx with rfl | hxr
    · exact hasCatalogMatch_fold rest _ x
        (hasCatalogMatch_self st x hvx (htrim x (List.mem_cons_self x rest)))
    · exact ih (upsertCatalogStep st a) (fun y hy => htrim y (List.mem_cons_of_mem a hy)) x hxr hvx

theorem no_create_pass (items : List CatalogItem) :
    ∀ (st : MergeState CatalogTitle),
      (∀ x ∈ items, is_valid_text (some x.title) = true → hasCatalogMatch st.store x = true) →
      (items.foldl upsertCatalogStep st).created = st.created := by
  induction items with
  | nil => intro st _; rfl
  | cons a rest ih =>
    intro st hcov
    rw [List.foldl_cons]
    by_cases hv : is_valid_text (some a.title) = true
    · obtain ⟨e, hf⟩ := find?_isSome_of_any _ _ (hcov a (List.mem_cons_self a rest) hv)
      rw [upsertCatalogStep_found st a e hv hf]
      rw [ih _ ?_]
      intro y hy hvy
      have h := hcov y (List.mem_cons_of_mem a hy) hvy
      unfold hasCatalogMatch at h ⊢
      rwa [updateFirstWith_any_congr _ _ _ (fun b => catalogMatches_mergeCatalog y a b)]
    · rw [upsertCatalogStep_invalid st a (Bool.not_eq_true _ ▸ hv)]
      exact ih st (fun y hy => hcov y (List.mem_cons_of_mem a hy))

/-- Counterexample to claim C2 as stated: one untrimmed (but valid) title makes
the second pass insert again, because inserts store the trimmed title while
lookups use the raw one. -/
theorem merge_idempotent_counterexample :
    (upsert_catalog_items (upsert_catalog_items [] [itemPadAB]).store [itemPadAB]).created = 1 := by
  decide

/-- Claim C2 as amended: for every stream whose item titles carry no leading or
trailing whitespace, a second run of upsert_catalog_items over the same stream
creates nothing — every item becomes an update or a no-op. -/
theorem merge_idempotent_trimmed (store : List CatalogTitle) (items : List CatalogItem)
    (htrim : ∀ x ∈ items, pstrip x.title = x.title) :
    (upsert_catalog_items (upsert_catalog_items store items).store items).created = 0 := by
  unfold upsert_catalog_items
  exact no_create_pass items _ (fun x hx hvx =>
    covered_after_pass items ⟨store, 0, 0⟩ htrim x hx hvx)

/-- Witness for the amended C2 on a concrete trimmed one-item stream. -/
theorem merge_idempotent_trimmed_w :
    (∀ x ∈ [itemAB], pstrip x.title = x.title) ∧
    (upsert_catalog_items (upsert_catalog_items [] [itemAB]).store [itemAB]).created = 0 :=
  ⟨by decide, merge_idempotent_trimmed [] [itemAB] (by decide)⟩

/-! Uniqueness-invariant lemmas. -/

theorem uniqueCatalogKeys_updateFirstWith (x : CatalogItem) (q : CatalogTitle → Bool) :
    ∀ l : List CatalogTitle,
      uniqueCatalogKeys (updateFirstWith q (fun a => (mergeCatalog a x).1) l) =
        uniqueCatalogKeys l := by
  intro l
  induction l with
  | nil => rfl
  | cons z zs ih =>
    by_cases hz : q z
    · simp only [updateFirstWith, if_pos hz]
      rfl
    · simp only [updateFirstWith, if_neg hz]
      show ((updateFirstWith q _ zs).all (fun y => !sameCatalogKey z y) &&
          uniqueCatalogKeys (updateFirstWith q (fun a => (mergeCatalog a x).1) zs)) =
        (zs.all (fun y => !sameCatalogKey z y) && uniqueCatalogKeys zs)
      rw [updateFirstWith_all_congr q (fun a => (mergeCatalog a x).1)
        (fun y => !sameCatalogKey z y) (fun a => rfl), ih]

theorem uniqueCatalogKeys_append (l : List CatalogTitle) (v : CatalogTitle)
    (hu : uniqueCatalogKeys l = true) (hv : ∀ y ∈ l, sameCatalogKey y v = false) :
    uniqueCatalogKeys (l ++ [v]) = true := by
  induction l with
  | nil => rfl
  | cons z zs ih =>
    rw [List.cons_append]
    show ((zs ++ [v]).all (fun y => !sameCatalogKey z y) && uniqueCatalogKeys (zs ++ [v])) = true
    rw [Bool.and_eq_true]
    have hu' : zs.all (fun y => !sameCatalogKey z y) = true ∧ uniqueCatalogKeys zs = true := by
      rw [← Bool.and_eq_true]
      exact hu
    constructor
    · rw [List.all_append, Bool.and_eq_true]
      refine ⟨hu'.1, ?_⟩
      simp [hv z (List.mem_cons_self z zs)]
    · exact ih hu'.2 (fun y hy => hv y (List.mem_cons_of_mem z hy))

theorem uniqueCatalogKeys_step (st : MergeState CatalogTitle) (x : CatalogItem)
    (ht : pstrip x.title = x.title) (hu : uniqueCatalogKeys st.store = true) :
    uniqueCatalogKeys (upsertCatalogStep st x).store = true := by
  by_cases hv : is_valid_text (some x.title) = true
  · cases hfind : st.store.find? (catalogMatches x) with
    | some e =>
      rw [upsertCatalogStep_found st x e hv hfind]
      show uniqueCatalogKeys (updateFirstWith _ _ st.store) = true
      rw [uniqueCatalogKeys_updateFirstWith x _ st.store]
      exact hu
    | none =>
      rw [upsertCatalogStep_notfound st x hv hfind]
      refine uniqueCatalogKeys_append st.store (newCatalogTitle x) hu ?_
      intro y hy
      have hmiss := List.find?_eq_none.mp hfind y hy
      have hmiss' : catalogMatches x y = false := Bool.not_eq_true _ ▸ hmiss
      show sameCatalogKey y (newCatalogTitle x) = false
      have hsame : sameCatalogKey y (newCatalogTitle x) = catalogMatches x y := by
        simp only [sameCatalogKey, newCatalogTitle, catalogMatches, ht]
      rw [hsame]
      exact hmiss'
  · rw [upsertCatalogStep_invalid st x (Bool.not_eq_true _ ▸ hv)]
    exact hu

/-- Counterexample to claim C4 as stated: a store satisfying the uniqueness
invariant loses it after one merge call, because the untrimmed incoming title
misses the lookup but is inserted trimmed, colliding with the stored key. -/
theorem unique_key_counterexample :
    uniqueCatalogKeys [titleAB] = true ∧
    uniqueCatalogKeys (upsert_catalog_items [titleAB] [itemPadAB]).store = false := by
  exact ⟨by decide, by decide⟩

/-- Claim C4 as amended: for every stream whose item titles carry no leading or
trailing whitespace, upsert_catalog_items preserves the at-most-one-row-per
(title, source, media_type) invariant. -/
theorem unique_key_invariant (store : List CatalogTitle) (items : List CatalogItem)
    (hu : uniqueCatalogKeys store = true)
    (htrim : ∀ x ∈ items, pstrip x.title = x.title) :
    uniqueCatalogKeys (upsert_catalog_items store items).store = true := by
  unfold upsert_catalog_items
  suffices hgen : ∀ (l : List CatalogItem) (st : MergeState CatalogTitle),
      (∀ x ∈ l, pstrip x.title = x.title) → uniqueCatalogKeys st.store = true →
      uniqueCatalogKeys (l.foldl upsertCatalogStep st).store = true by
    exact hgen items ⟨store, 0, 0⟩ htrim hu
  intro l
  induction l with
  | nil => intro st _ h; exact h
  | cons a rest ih =>
    intro st htr h
    rw [List.foldl_cons]
    exact ih _ (fun y hy => htr y (List.mem_cons_of_mem a hy))
      (uniqueCatalogKeys_step st a (htr a (List.mem_cons_self a rest)) h)

/-- Witness for the amended C4 on a concrete store and trimmed stream. -/
theorem unique_key_invariant_w :
    uniqueCatalogKeys (upsert_catalog_items [titleAB] [itemAB]).store = true :=
  unique_key_invariant [titleAB] [itemAB] (by decide) (by decide)

/-! Normalization-invariant lemmas. -/

theorem normOptText_normalize (v : Option String) :
    normOptText (if is_valid_text v then v.map pstrip else none) = true := by
  by_cases hv : is_valid_text v = true
  · obtain ⟨s, rfl⟩ := is_valid_text_isSome v hv
    rw [if_pos hv]
    show normOptText (some (pstrip s)) = true
    unfold normOptText
    rw [Bool.and_eq_true]
    exact ⟨is_valid_text_pstrip s hv, decide_eq_true (pstrip_idem s)⟩
  · rw [if_neg hv]
    rfl

theorem catalogTextOk_mergeCatalog (e : CatalogTitle) (i : CatalogItem)
    (h : catalogTextOk e = true) : catalogTextOk (mergeCatalog e i).1 = true := by
  unfold catalogTextOk at h ⊢
  rw [Bool.and_eq_true] at h ⊢
  obtain ⟨h1, h2⟩ := h
  constructor
  · show normOptText (if decide (better_text e.description i.description ≠ e.description) = true
        then better_text e.description i.description else e.description) = true
    split_ifs with hc
    · exact normOptText_better_text _ _ h1
    · exact h1
  · show normOptText (if decide (better_text e.release_date i.release_date ≠ e.release_date) = true
        then better_text e.release_date i.release_date else e.release_date) = true
    split_ifs with hc
    · exact normOptText_better_text _ _ h2
    · exact h2

theorem episodeTextOk_mergeEpisode (e : Episode) (i : EpisodeItem)
    (h : episodeTextOk e = true) : episodeTextOk (mergeEpisode e i).1 = true := by
  unfold episodeTextOk at h
  rw [Bool.and_eq_true, Bool.and_eq_true, Bool.and_eq_true] at h
  obtain ⟨⟨⟨hvt, htr⟩, hair⟩, hdesc⟩ := h
  have hnt : normOptText (some e.title) = true := by
    unfold normOptText
    rw [Bool.and_eq_true]
    exact ⟨hvt, htr⟩
  have hnew := normOptText_better_text (some e.title) (some i.title) hnt
  obtain ⟨s, hs⟩ := better_text_some_left e.title (some i.title)
  rw [hs] at hnew
  unfold normOptText at hnew
  rw [Bool.and_eq_true] at hnew
  unfold episodeTextOk
  rw [Bool.and_eq_true, Bool.and_eq_true, Bool.and_eq_true]
  refine ⟨⟨⟨?_, ?_⟩, ?_⟩, ?_⟩
  · rw [mergeEpisode_title e i, hs, Option.getD_some]
    exact hnew.1
  · rw [mergeEpisode_title e i, hs, Option.getD_some]
    exact hnew.2
  · show normOptText (if decide (better_text e.air_date i.air_date ≠ e.air_date) = true
        then better_text e.air_date i.air_date else e.air_date) = true
    split_ifs with hc
    · exact normOptText_better_text _ _ hair
    · exact hair
  · show normOptText (if decide (better_text e.description i.description ≠ e.description) = true
        then better_text e.description i.description else e.description) = true
    split_ifs with hc
    · exact normOptText_better_text _ _ hdesc
    · exact hdesc

theorem catalogTextOk_new (i : CatalogItem) : catalogTextOk (newCatalogTitle i) = true := by
  unfold catalogTextOk newCatalogTitle
  rw [Bool.and_eq_true]
  exact ⟨normOptText_normalize i.description, normOptText_normalize i.release_date⟩

theorem episodeTextOk_new (cid : Int) (i : EpisodeItem)
    (hv : is_valid_text (some i.title) = true) : episodeTextOk (newEpisode cid i) = true := by
  unfold episodeTextOk newEpisode
  rw [Bool.and_eq_true, Bool.and_eq_true, Bool.and_eq_true]
  exact ⟨⟨⟨is_valid_text_pstrip i.title hv, decide_eq_true (pstrip_idem i.title)⟩,
    normOptText_normalize i.air_date⟩, normOptText_normalize i.description⟩

theorem catalogStoreOk_step (st : MergeState CatalogTitle) (x : CatalogItem)
    (h : catalogStoreOk st.store = true) :
    catalogStoreOk (upsertCatalogStep st x).store = true := by
  by_cases hv : is_valid_text (some x.title) = true
  · cases hfind : st.store.find? (catalogMatches x) with
    | some e =>
      rw [upsertCatalogStep_found st x e hv hfind]
      exact updateFirstWith_all_pres _ _ _ (fun a ha => catalogTextOk_mergeCatalog a x ha)
        st.store h
    | none =>
      rw [upsertCatalogStep_notfound st x hv hfind]
      show (st.store ++ [newCatalogTitle x]).all catalogTextOk = true
      rw [List.all_append, Bool.and_eq_true]
      exact ⟨h, by simp [catalogTextOk_new x]⟩
  · rw [upsertCatalogStep_invalid st x (Bool.not_eq_true _ ▸ hv)]
    exact h

theorem episodeStoreOk_step (cid : Int) (st : MergeState Episode) (x : EpisodeItem)
    (h : episodeStoreOk st.store = true) :
    episodeStoreOk (upsertEpisodeStep cid st x).store = true := by
  by_cases hv : is_valid_text (some x.title) = true
  · cases hfind : st.store.find? (episodeMatches cid x) with
    | some e =>
      rw [upsertEpisodeStep_found cid st x e hv hfind]
      exact updateFirstWith_all_pres _ _ _ (fun a ha => episodeTextOk_mergeEpisode a x ha)
        st.store h
    | none =>
      rw [upsertEpisodeStep_notfound cid st x hv hfind]
      show (st.store ++ [newEpisode cid x]).all episodeTextOk = true
      rw [List.all_append, Bool.and_eq_true]
      exact ⟨h, by simp [episodeTextOk_new cid x hv]⟩
  · rw [upsertEpisodeStep_invalid cid st x (Bool.not_eq_true _ ▸ hv)]
    exact h

/-- Claim C10: both merge engines preserve the normalization invariant — every
stored quality-evaluated text field is either absent or a trimmed string
accepted by the validity predicate, and a stored episode title is itself
trimmed and valid. -/
theorem stored_text_normalized :
    (∀ (store : List CatalogTitle) (items : List CatalogItem),
        catalogStoreOk store = true →
        catalogStoreOk (upsert_catalog_items store items).store = true) ∧
    (∀ (store : List Episode) (catalog_id : Int) (items : List EpisodeItem),
        episodeStoreOk store = true →
        episodeStoreOk (upsert_episode_items store catalog_id items).store = true) := by
  constructor
  · intro store items h
    unfold upsert_catalog_items
    suffices hgen : ∀ (l : List CatalogItem) (st : MergeState CatalogTitle),
        catalogStoreOk st.store = true →
        catalogStoreOk (l.foldl upsertCatalogStep st).store = true by
      exact hgen items ⟨store, 0, 0⟩ h
    intro l
    induction l with
    | nil => intro st h; exact h
    | cons a rest ih =>
      intro st h
      rw [List.foldl_cons]
      exact ih _ (catalogStoreOk_step st a h)
  · intro store catalog_id items h
    unfold upsert_episode_items
    suffices hgen : ∀ (l : List EpisodeItem) (st : MergeState Episode),
        episodeStoreOk st.store = true →
        episodeStoreOk (l.foldl (upsertEpisodeStep catalog_id) st).store = true by
      exact hgen items ⟨store, 0, 0⟩ h
    intro l
    induction l with
    | nil => intro st h; exact h
    | cons a rest ih =>
      intro st h
      rw [List.foldl_cons]
      exact ih _ (episodeStoreOk_step catalog_id st a h)

/-- Witness for C10 on concrete messy inputs in each engine. -/
theorem stored_text_normalized_w :
    catalogStoreOk (upsert_catalog_items [] [messyItem]).store = true ∧
    episodeStoreOk (upsert_episode_items [] 1 [messyEpItem]).store = true :=
  ⟨stored_text_normalized.1 [] [messyItem] (by decide),
   stored_text_normalized.2 [] 1 [messyEpItem] (by decide)⟩

/-! Two-tier episode identity lemmas. -/

theorem updateFirstWith_any_self (q : α → Bool) (f : α → α)
    (hf : ∀ a, q a = true → q (f a) = true) :
    ∀ l : List α, l.any q = true → (updateFirstWith q f l).any q = true := by
  intro l
  induction l with
  | nil => intro h; exact h
  | cons z zs ih =>
    intro h
    by_cases hz : q z
    · simp [updateFirstWith, hz, hf z hz]
    · rw [List.any_cons, Bool.or_eq_true] at h
      rcases h with h | h
      · exact absurd h hz
      · simp [updateFirstWith, hz, ih h]

theorem episodeMatches_unnumbered (cid : Int) (item : EpisodeItem) (e : Episode)
    (hs : item.season_number = none) :
    episodeMatches cid item e = decide (e.catalog_id = cid ∧ e.title = item.title) := by
  unfold episodeMatches
  rw [hs]
  rfl

/-- Counterexample to claim C5 as stated: the bulk IMDb path inserts a second
row although a row with the same (catalog_id, season, episode) triple exists
(its lookup always also constrains the title), and the services fallback path
duplicates two identical unnumbered titles when they are untrimmed. -/
theorem episode_two_tier_counterexample :
    epOld.catalog_id = 1 ∧ epOld.season_number = epRec.season_number ∧
    epOld.episode_number = epRec.episode_number ∧ epLookup epRec.parent_tconst = some 1 ∧
    (upsert_imdb_episodes [epOld] epLookup [epRec] epTitles).created = 1 ∧
    (upsert_imdb_episodes [epOld] epLookup [epRec] epTitles).store.length = 2 ∧
    eItemPad.season_number = none ∧ eItemPad.episode_number = none ∧
    (upsert_episode_items [] 1 [eItemPad, eItemPad]).created = 2 ∧
    (upsert_episode_items [] 1 [eItemPad, eItemPad]).store.length = 2 := by
  decide

/-- Claim C5 as amended: the two-tier rule governs upsert_episode_items — by
(catalog_id, season, episode) when both numbers are present, by
(catalog_id, title) otherwise, so two unnumbered items with the same trimmed
valid title merged for one catalog produce at most one insert — while the bulk
IMDb ingest path always also constrains the title in its lookup. -/
theorem episode_two_tier :
    (∀ (catalog_id : Int) (item : EpisodeItem) (e : Episode),
        item.season_number ≠ none → item.episode_number ≠ none →
        (episodeMatches catalog_id item e = true ↔
          e.catalog_id = catalog_id ∧ e.season_number = item.season_number ∧
            e.episode_number = item.episode_number)) ∧
    (∀ (catalog_id : Int) (item : EpisodeItem) (e : Episode),
        item.season_number = none ∨ item.episode_number = none →
        (episodeMatches catalog_id item e = true ↔
          e.catalog_id = catalog_id ∧ e.title = item.title)) ∧
    (∀ (store : List Episode) (catalog_id : Int) (i1 i2 : EpisodeItem),
        i1.season_number = none → i1.episode_number = none →
        i2.season_number = none → i2.episode_number = none →
        i2.title = i1.title → is_valid_text (some i1.title) = true →
        pstrip i1.title = i1.title →
        (upsert_episode_items store catalog_id [i1, i2]).created ≤ 1) ∧
    (∀ (catalog_id : Int) (sn en : Option Int) (t : String) (e : Episode),
        imdbEpisodeMatches catalog_id sn en t e = true → e.title = t) := by
  refine ⟨?_, ?_, ?_, ?_⟩
  · intro cid item e h1 h2
    have hs1 : item.season_number.isSome = true := Option.ne_none_iff_isSome.mp h1
    have hs2 : item.episode_number.isSome = true := Option.ne_none_iff_isSome.mp h2
    unfold episodeMatches
    rw [if_pos (by rw [hs1, hs2]; rfl)]
    exact ⟨of_decide_eq_true, fun hp => decide_eq_true hp⟩
  · intro cid item e h
    have hcond : (item.season_number.isSome && item.episode_number.isSome) = false := by
      rcases h with h | h <;> simp [h]
    unfold episodeMatches
    rw [if_neg (by rw [hcond]; exact Bool.false_ne_true)]
    exact ⟨of_decide_eq_true, fun hp => decide_eq_true hp⟩
  · intro store cid i1 i2 hs1 he1 hs2 he2 htt hv htr
    have hv2 : is_valid_text (some i2.title) = true := by rwa [htt]
    have hq : episodeMatches cid i2 = episodeMatches cid i1 := by
      funext e
      rw [episodeMatches_unnumbered cid i2 e hs2, episodeMatches_unnumbered cid i1 e hs1, htt]
    unfold upsert_episode_items
    rw [List.foldl_cons, List.foldl_cons, List.foldl_nil]
    have hcov : (upsertEpisodeStep cid ⟨store, 0, 0⟩ i1).store.any (episodeMatches cid i1)
        = true := by
      cases hfind : (⟨store, 0, 0⟩ : MergeState Episode).store.find? (episodeMatches cid i1) with
      | some e =>
        rw [upsertEpisodeStep_found cid _ i1 e hv hfind]
        refine updateFirstWith_any_self _ _ ?_ _ (any_of_find?_eq_some _ _ e hfind)
        intro a ha
        rw [episodeMatches_unnumbered cid i1 a hs1] at ha
        rw [episodeMatches_unnumbered cid i1 _ hs1]
        obtain ⟨hcid, htit⟩ := of_decide_eq_true ha
        apply decide_eq_true
        refine ⟨?_, ?_⟩
        · rw [mergeEpisode_catalog_id]
          exact hcid
        · rw [mergeEpisode_title, htit, better_text_refl i1.title hv, Option.getD_some]
      | none =>
        rw [upsertEpisodeStep_notfound cid _ i1 hv hfind]
        show (store ++ [newEpisode cid i1]).any (episodeMatches cid i1) = true
        rw [List.any_append, Bool.or_eq_true]
        right
        rw [List.any_cons, episodeMatches_unnumbered cid i1 _ hs1, Bool.or_eq_true]
        left
        apply decide_eq_true
        exact ⟨rfl, by rw [show (newEpisode cid i1).title = pstrip i1.title from rfl, htr]⟩
    have hc2 : (upsertEpisodeStep cid (upsertEpisodeStep cid ⟨store, 0, 0⟩ i1) i2).created =
        (upsertEpisodeStep cid ⟨store, 0, 0⟩ i1).created := by
      have hm : (upsertEpisodeStep cid ⟨store, 0, 0⟩ i1).store.any (episodeMatches cid i2)
          = true := by
        rw [hq]
        exact hcov
      obtain ⟨e, hf⟩ := find?_isSome_of_any _ _ hm
      rw [upsertEpisodeStep_found cid _ i2 e hv2 hf]
    rw [hc2]
    cases hfind : (⟨store, 0, 0⟩ : MergeState Episode).store.find? (episodeMatches cid i1) with
    | some e =>
      rw [upsertEpisodeStep_found cid _ i1 e hv hfind]
      exact Nat.zero_le 1
    | none =>
      rw [upsertEpisodeStep_notfound cid _ i1 hv hfind]
  · intro cid sn en t e h
    exact (of_decide_eq_true h).2.2.2

/-- Witness for the amended C5: a concrete unnumbered pair creates at most one
row, and the fallback lookup reduces to the (catalog_id, title) key. -/
theorem episode_two_tier_w :
    (upsert_episode_items [] 1 [eItemAB, eItemAB]).created ≤ 1 ∧
    (episodeMatches 1 eItemAB epStored = true ↔
      epStored.catalog_id = 1 ∧ epStored.title = eItemAB.title) :=
  ⟨episode_two_tier.2.2.1 [] 1 eItemAB eItemAB rfl rfl rfl rfl rfl (by decide) (by decide),
   episode_two_tier.2.1 1 eItemAB epStored (Or.inl rfl)⟩
